import Mathlib

/-!
Verification of `feed_builder.py` (aboutamazon-it-rss).

Shallow embedding: Python strings are modelled as lists of Unicode code
points (`List Nat`).  Pure functions of the source are translated to Lean
functions; external collaborators (the HTML entity table of the standard
library, the DOM/readability libraries, the network) are modelled at their
interface boundary, as documented on each definition.
-/

namespace FeedBuilder

/-- A Python string, as its sequence of Unicode code points. -/
abbrev Str := List Nat

/-- Convert a Lean string literal to its code-point list. -/
def str (s : String) : Str := s.toList.map Char.toNat

/-- The set of code points on which Python `str.split()` (no argument) and
`str.strip()` split, i.e. the code points `c` with `chr(c).isspace()`. -/
def pyIsSpace (c : Nat) : Bool :=
  c == 9 || c == 10 || c == 11 || c == 12 || c == 13 ||
  (28 ≤ c && c ≤ 31) || c == 32 || c == 133 || c == 160 || c == 5760 ||
  (8192 ≤ c && c ≤ 8202) || c == 8232 || c == 8233 || c == 8239 ||
  c == 8287 || c == 12288

/-- The character class kept by `_XML_INVALID_RE.sub("", ·)`
(`feed_builder.py` line 24): the complement of
`[^\u0009\u000A\u000D -퟿-�]`. -/
def xmlValidChar (c : Nat) : Bool :=
  c == 9 || c == 10 || c == 13 ||
  (32 ≤ c && c ≤ 55295) || (57344 ≤ c && c ≤ 65533)

/-- Python `str.strip()` (whitespace strip at both ends). -/
def pyStrip (l : Str) : Str :=
  ((l.dropWhile pyIsSpace).reverse.dropWhile pyIsSpace).reverse

/-- Characters allowed in the name part of an HTML character reference:
the regex class `[^\t\n\f <&#;]` of the stdlib `html.unescape` matcher. -/
def namedClassOk (c : Nat) : Bool :=
  !(c == 9 || c == 10 || c == 12 || c == 32 || c == 60 || c == 38 ||
    c == 35 || c == 59)

/-- Model of the stdlib HTML5 named-entity table (`html._html5`),
restricted to the entries exercised in this development.  As in the
stdlib, names appear both with and without the trailing semicolon. -/
def entityTable : List (Str × Str) :=
  [ (str r"amp;", str r"&"), (str r"amp", str r"&"),
    (str r"lt;", str r"<"), (str r"lt", str r"<"),
    (str r"gt;", str r">"), (str r"gt", str r">"),
    (str r"quot;", [34]), (str r"quot", [34]),
    (str r"apos;", [39]),
    (str r"nbsp;", [160]), (str r"nbsp", [160]) ]

/-- Look a candidate entity name up in the table. -/
def lookupEntity (s : Str) : Option Str :=
  (entityTable.find? (fun p => p.1 == s)).map (fun p => p.2)

/-- The prefix-shortening fallback of `html._replace_charref`: try the
prefixes of `s` of length `k, k-1, ..., 2` in the table; on a hit return
the replacement together with the unconsumed tail of `s`. -/
def lookupPrefixes (s : Str) : Nat → Option (Str × Str)
  | 0 => none
  | k + 1 =>
    if k = 0 then none
    else
      match lookupEntity (s.take (k + 1)) with
      | some v => some (v, s.drop (k + 1))
      | none => lookupPrefixes s k

/-- Resolve a matched named reference `s` (semicolon included when it was
matched), as `html._replace_charref` does: full lookup first, then the
longest known prefix, otherwise the match is left unchanged. -/
def resolveNamed (s : Str) : Str :=
  match lookupEntity s with
  | some v => v
  | none =>
    match lookupPrefixes s (s.length - 1) with
    | some (v, rest) => v ++ rest
    | none => 38 :: s

/-- Replacement for a numeric character reference with value `num`.
The stdlib remaps `0` (and some Windows-1252 code points, not reproduced
here — no claim exercises them) to U+FFFD, maps surrogates and
out-of-range values to U+FFFD, and otherwise yields the code point. -/
def charrefReplacement (num : Nat) : Str :=
  if num = 0 then [65533]
  else if 55296 ≤ num && num ≤ 57343 then [65533]
  else if 1114111 < num then [65533]
  else [num]

def isDecDigit (c : Nat) : Bool := 48 ≤ c && c ≤ 57

def isHexDigit (c : Nat) : Bool :=
  (48 ≤ c && c ≤ 57) || (97 ≤ c && c ≤ 102) || (65 ≤ c && c ≤ 70)

def hexVal (c : Nat) : Nat :=
  if 48 ≤ c && c ≤ 57 then c - 48
  else if 97 ≤ c && c ≤ 102 then c - 87
  else c - 55

def numFromDec (ds : Str) : Nat := ds.foldl (fun a c => a * 10 + (c - 48)) 0

def numFromHex (ds : Str) : Nat := ds.foldl (fun a c => a * 16 + hexVal c) 0

/-- Consume an optional semicolon. -/
def dropSemi (l : Str) : Str :=
  match l with
  | 59 :: r => r
  | _ => l

/-- Try to match a character reference right after an ampersand, following
the stdlib matcher `&(#[0-9]+;?|#[xX][0-9a-fA-F]+;?|[^\t\n\f <&#;]{1,32};?)`.
Returns the replacement text and the remaining input, or `none` when the
ampersand stays literal. -/
def matchAmpRef (rest : Str) : Option (Str × Str) :=
  match rest with
  | 35 :: r2 =>
    match r2 with
    | 120 :: r3 =>
      let ds := r3.takeWhile isHexDigit
      if ds = [] then none
      else some (charrefReplacement (numFromHex ds), dropSemi (r3.drop ds.length))
    | 88 :: r3 =>
      let ds := r3.takeWhile isHexDigit
      if ds = [] then none
      else some (charrefReplacement (numFromHex ds), dropSemi (r3.drop ds.length))
    | _ =>
      let ds := r2.takeWhile isDecDigit
      if ds = [] then none
      else some (charrefReplacement (numFromDec ds), dropSemi (r2.drop ds.length))
  | _ =>
    let cand := (rest.takeWhile namedClassOk).take 32
    if cand = [] then none
    else
      match rest.drop cand.length with
      | 59 :: r => some (resolveNamed (cand ++ [59]), r)
      | r => some (resolveNamed cand, r)

/-- Fuelled scanning loop of `html.unescape`.  Each step consumes at least
one input code point, so `l.length` fuel always suffices. -/
def unescapeFuel : Nat → Str → Str
  | 0, l => l
  | _ + 1, [] => []
  | fuel + 1, c :: rest =>
    if c = 38 then
      match matchAmpRef rest with
      | some (rep, rest2) => rep ++ unescapeFuel fuel rest2
      | none => 38 :: unescapeFuel fuel rest
    else c :: unescapeFuel fuel rest

/-- Model of the stdlib collaborator `html.unescape` (first step of
`sanitize_xml`, `feed_builder.py` line 31). -/
def htmlUnescape (l : Str) : Str := unescapeFuel l.length l

/-- Helper for `splitWs`: `acc` is the reversed word in progress. -/
def splitWsAcc (acc : Str) : Str → List Str
  | [] => if acc = [] then [] else [acc.reverse]
  | c :: rest =>
    if pyIsSpace c then
      if acc = [] then splitWsAcc [] rest
      else acc.reverse :: splitWsAcc [] rest
    else splitWsAcc (c :: acc) rest

/-- Python `text.split()`: maximal runs of non-whitespace code points. -/
def splitWs (l : Str) : List Str := splitWsAcc [] l

/-- Python single-space `join(words)`. -/
def joinWords : List Str → Str
  | [] => []
  | [w] => w
  | w :: x :: ws => w ++ 32 :: joinWords (x :: ws)

/-- Python single-space `join(text.split())` (`feed_builder.py` line 35). -/
def normalizeWs (l : Str) : Str := joinWords (splitWs l)

/-- `sanitize_xml` (`feed_builder.py` lines 26-36): empty-check, HTML
entity resolution, removal of XML-invalid code points, whitespace
normalization. -/
def sanitize_xml (l : Str) : Str :=
  if l = [] then []
  else normalizeWs ((htmlUnescape l).filter xmlValidChar)

/-! Lemmas about the sanitizer. -/

lemma mem_splitWsAcc {w : Str} {c : Nat} :
    ∀ (l acc : Str), w ∈ splitWsAcc acc l → c ∈ w → c ∈ acc ∨ c ∈ l := by
  intro l
  induction l with
  | nil =>
    intro acc hw hc
    simp only [splitWsAcc] at hw
    split at hw
    · simp at hw
    · simp only [List.mem_singleton] at hw
      subst hw
      exact Or.inl (List.mem_reverse.mp hc)
  | cons c0 rest ih =>
    intro acc hw hc
    simp only [splitWsAcc] at hw
    split at hw
    · split at hw
      · rcases ih [] hw hc with h | h
        · simp at h
        · exact Or.inr (List.mem_cons_of_mem _ h)
      · rcases List.mem_cons.mp hw with h | h
        · subst h
          exact Or.inl (List.mem_reverse.mp hc)
        · rcases ih [] h hc with h2 | h2
          · simp at h2
          · exact Or.inr (List.mem_cons_of_mem _ h2)
    · rcases ih (c0 :: acc) hw hc with h | h
      · rcases List.mem_cons.mp h with h2 | h2
        · subst h2; exact Or.inr (List.mem_cons_self _ _)
        · exact Or.inl h2
      · exact Or.inr (List.mem_cons_of_mem _ h)

lemma splitWsAcc_good {w : Str} :
    ∀ (l acc : Str), (∀ c ∈ acc, pyIsSpace c = false) → w ∈ splitWsAcc acc l →
      w ≠ [] ∧ ∀ c ∈ w, pyIsSpace c = false := by
  intro l
  induction l with
  | nil =>
    intro acc hacc hw
    by_cases hacc0 : acc = []
    · simp [splitWsAcc, hacc0] at hw
    · simp only [splitWsAcc, if_neg hacc0, List.mem_singleton] at hw
      subst hw
      exact ⟨by simp [hacc0], fun c hc => hacc c (List.mem_reverse.mp hc)⟩
  | cons c0 rest ih =>
    intro acc hacc hw
    simp only [splitWsAcc] at hw
    by_cases hsp : pyIsSpace c0 = true
    · rw [if_pos hsp] at hw
      by_cases hacc0 : acc = []
      · rw [if_pos hacc0] at hw
        exact ih [] (by simp) hw
      · rw [if_neg hacc0] at hw
        rcases List.mem_cons.mp hw with h | h
        · subst h
          exact ⟨by simp [hacc0], fun c hc => hacc c (List.mem_reverse.mp hc)⟩
        · exact ih [] (by simp) h
    · rw [if_neg hsp] at hw
      refine ih (c0 :: acc) ?_ hw
      intro d hd
      rcases List.mem_cons.mp hd with h | h
      · subst h; simpa using hsp
      · exact hacc d h

lemma splitWs_good {w : Str} {l : Str} (hw : w ∈ splitWs l) :
    w ≠ [] ∧ ∀ c ∈ w, pyIsSpace c = false :=
  splitWsAcc_good l [] (by simp) hw

lemma splitWsAcc_append_word {w : Str} (hw : ∀ c ∈ w, pyIsSpace c = false) :
    ∀ (acc l : Str), splitWsAcc acc (w ++ l) = splitWsAcc (w.reverse ++ acc) l := by
  induction w with
  | nil => intro acc l; simp
  | cons c w' ih =>
    intro acc l
    have hc : pyIsSpace c = false := hw c (List.mem_cons_self _ _)
    show splitWsAcc acc (c :: (w' ++ l)) = _
    simp only [splitWsAcc]
    rw [if_neg (by simp [hc])]
    rw [ih (fun d hd => hw d (List.mem_cons_of_mem _ hd)) (c :: acc) l]
    simp [List.append_assoc]

lemma splitWs_joinWords :
    ∀ ws : List Str, (∀ w ∈ ws, w ≠ [] ∧ ∀ c ∈ w, pyIsSpace c = false) →
      splitWs (joinWords ws) = ws := by
  intro ws
  induction ws with
  | nil => intro _; rfl
  | cons w tail ih =>
    intro hgood
    have hw := hgood w (List.mem_cons_self _ _)
    cases tail with
    | nil =>
      show splitWsAcc [] (joinWords [w]) = [w]
      have : joinWords [w] = w ++ [] := by simp [joinWords]
      rw [this, splitWsAcc_append_word hw.2]
      simp only [splitWsAcc, List.append_nil]
      rw [if_neg (by simp [hw.1])]
      simp
    | cons x tail2 =>
      show splitWsAcc [] (joinWords (w :: x :: tail2)) = w :: x :: tail2
      simp only [joinWords]
      rw [splitWsAcc_append_word hw.2]
      simp only [List.append_nil, splitWsAcc]
      rw [if_pos (by decide)]
      rw [if_neg (by simp [hw.1])]
      simp only [List.reverse_reverse]
      congr 1
      exact ih (fun v hv => hgood v (List.mem_cons_of_mem _ hv))

lemma mem_joinWords {c : Nat} :
    ∀ ws : List Str, c ∈ joinWords ws → c = 32 ∨ ∃ w ∈ ws, c ∈ w := by
  intro ws
  induction ws with
  | nil => intro h; simp [joinWords] at h
  | cons w tail ih =>
    intro h
    cases tail with
    | nil =>
      refine Or.inr ⟨w, List.mem_cons_self _ _, ?_⟩
      simpa [joinWords] using h
    | cons x tail2 =>
      simp only [joinWords, List.mem_append, List.mem_cons] at h
      rcases h with h | h | h
      · exact Or.inr ⟨w, List.mem_cons_self _ _, h⟩
      · exact Or.inl h
      · rcases ih h with h2 | ⟨v, hv, hcv⟩
        · exact Or.inl h2
        · exact Or.inr ⟨v, List.mem_cons_of_mem _ hv, hcv⟩

/-- Every code point of a `sanitize_xml` output passes the XML filter. -/
lemma sanitize_valid {s : Str} {c : Nat} (h : c ∈ sanitize_xml s) :
    xmlValidChar c = true := by
  unfold sanitize_xml at h
  split at h
  · simp at h
  · rcases mem_joinWords _ h with h32 | ⟨w, hw, hcw⟩
    · subst h32; decide
    · rcases mem_splitWsAcc _ [] hw hcw with h2 | h2
      · simp at h2
      · exact (List.mem_filter.mp h2).2

lemma unescape_no_amp : ∀ (fuel : Nat) (l : Str), (38 : Nat) ∉ l →
    unescapeFuel fuel l = l := by
  intro fuel
  induction fuel with
  | zero => intro l _; rfl
  | succ n ih =>
    intro l hl
    cases l with
    | nil => rfl
    | cons c rest =>
      have hc : ¬ (c = 38) := fun h => hl (h ▸ List.mem_cons_self _ _)
      simp only [unescapeFuel, if_neg hc]
      rw [ih rest (fun h => hl (List.mem_cons_of_mem _ h))]

lemma normalizeWs_idem (l : Str) : normalizeWs (normalizeWs l) = normalizeWs l := by
  unfold normalizeWs
  rw [splitWs_joinWords _ (fun w hw => splitWs_good hw)]

lemma sanitize_unfold {x : Str} (hx : x ≠ []) :
    sanitize_xml x = normalizeWs ((htmlUnescape x).filter xmlValidChar) := by
  unfold sanitize_xml
  rw [if_neg hx]

lemma sanitize_idem_of_no_amp {x : Str} (h : (38 : Nat) ∉ sanitize_xml x) :
    sanitize_xml (sanitize_xml x) = sanitize_xml x := by
  by_cases hx : x = []
  · subst hx; rfl
  by_cases hy : sanitize_xml x = []
  · rw [hy]; rfl
  rw [sanitize_unfold hy]
  rw [show htmlUnescape (sanitize_xml x) = sanitize_xml x from unescape_no_amp _ _ h]
  rw [List.filter_eq_self.mpr (fun c hc => sanitize_valid hc)]
  rw [sanitize_unfold hx]
  exact normalizeWs_idem _

/-- Claim C2, counterexample: `sanitize_xml` is **not** idempotent.  The
first pass resolves the entity `&amp;amp;` to `&amp;`; the second pass
resolves that again to `&`, so applying the sanitizer twice differs from
applying it once. -/
theorem claim_C2_counterexample :
    sanitize_xml (sanitize_xml (str r"&amp;amp;")) ≠ sanitize_xml (str r"&amp;amp;") := by
  decide

/-- Claim C2, amended: `sanitize_xml` is total (the empty string yields
the empty string, and every input yields a result by construction), and it
is idempotent on every input whose sanitized output contains no ampersand
(code point 38); it is not idempotent in general, because the HTML-entity
resolution step is re-applied on the second pass. -/
theorem claim_C2_amended :
    sanitize_xml [] = [] ∧
    ∀ x : Str, (38 : Nat) ∉ sanitize_xml x →
      sanitize_xml (sanitize_xml x) = sanitize_xml x :=
  ⟨rfl, fun _ h => sanitize_idem_of_no_amp h⟩

/-- Witness for the amended claim C2 at the concrete input `"ciao mondo"`. -/
theorem claim_C2_witness :
    sanitize_xml (sanitize_xml (str r"ciao mondo")) = sanitize_xml (str r"ciao mondo") :=
  claim_C2_amended.2 (str r"ciao mondo") (by decide)

/-- Claim C8, confirmed: every code point of a `sanitize_xml` output lies
in the XML 1.0 allowed set — tab, newline, carriage return,
U+0020..U+D7FF, U+E000..U+FFFD. -/
theorem claim_C8_sanitize_range :
    ∀ s : Str, ∀ c ∈ sanitize_xml s,
      c = 9 ∨ c = 10 ∨ c = 13 ∨ (32 ≤ c ∧ c ≤ 55295) ∨ (57344 ≤ c ∧ c ≤ 65533) := by
  intro s c hc
  have h := sanitize_valid hc
  simp only [xmlValidChar, Bool.or_eq_true, Bool.and_eq_true, beq_iff_eq,
    decide_eq_true_eq] at h
  tauto

/-- Witness for claim C8 at the concrete input `"abc"` and code point 97. -/
theorem claim_C8_witness :
    97 = 9 ∨ 97 = 10 ∨ 97 = 13 ∨ (32 ≤ 97 ∧ 97 ≤ 55295) ∨
      (57344 ≤ 97 ∧ 97 ≤ 65533) :=
  claim_C8_sanitize_range (str r"abc") 97 (by decide)

/-! The per-document model and the attribute extractors. -/

/-- Substring test, Python `pat in s`. -/
def containsSub (pat : Str) : Str → Bool
  | [] => pat.isPrefixOf []
  | c :: rest => pat.isPrefixOf (c :: rest) || containsSub pat rest

/-- Python `s.split(sep)[0]` for nonempty `sep`: the prefix of `s` before
the first occurrence of `sep`, or all of `s` when `sep` is absent. -/
def splitFirstOn (sep : Str) : Str → Str
  | [] => []
  | c :: rest =>
    if sep.isPrefixOf (c :: rest) then [] else c :: splitFirstOn sep rest

/-- The site-name separator `" — "` (space, em dash, space) of line 159. -/
def emDashSep : Str := str r" — "

/-- The fixed title placeholder of line 163. -/
def placeholderTitle : Str := str r"Articolo da About Amazon Italia"

/-- One fetched and DOM-parsed article document, modelled at the
collaborator boundary (the DOM library, the readability extractor and the
JSON parser are external): each field holds what the corresponding lookup
of `extract_article` would read from the parsed document.
`none` means the tag/element is absent; a present meta tag with an empty
`content` attribute is `some []`. -/
structure Doc where
  h1Text : Option Str := none
  ogTitle : Option Str := none
  twitterTitle : Option Str := none
  titleText : Option Str := none
  ogImage : Option Str := none
  ogImageVariant : Option Str := none
  twitterImage : Option Str := none
  jsonLdImage : Option Str := none
  bodyImgs : List (Str × Str) := []
  trafilaturaText : Option Str := none
  articleText : Option Str := none
  dateProbes : List (Option Str) := []
deriving DecidableEq

/-- The wholly empty document: no headings, no meta tags, no title, no
images, no extractable body, no date signals. -/
def emptyDoc : Doc := {}

/-- Lines 137-160: the title fallback chain before the final placeholder —
first-level heading, `og:title` / `twitter:title` meta content (the loop
breaks on the first meta tag with a truthy `content`), then the `<title>`
text truncated at the `" — "` site-name separator when present. -/
def titleChain (d : Doc) : Str :=
  let t1 := match d.h1Text with
    | some h => sanitize_xml h
    | none => []
  if t1 ≠ [] then t1 else
  let t2 := match d.ogTitle with
    | some c =>
      if c ≠ [] then sanitize_xml (pyStrip c)
      else match d.twitterTitle with
        | some c2 => if c2 ≠ [] then sanitize_xml (pyStrip c2) else []
        | none => []
    | none => match d.twitterTitle with
      | some c2 => if c2 ≠ [] then sanitize_xml (pyStrip c2) else []
      | none => []
  if t2 ≠ [] then t2 else
  match d.titleText with
  | some tt =>
    let t := sanitize_xml tt
    if containsSub emDashSep t then splitFirstOn emDashSep t else t
  | none => []

/-- Lines 137-163: title extraction; the chain result, or the fixed
placeholder when every strategy bottomed out empty. -/
def extract_title (d : Doc) : Str :=
  if titleChain d = [] then placeholderTitle else titleChain d

def httpLit : Str := str r"http"

/-- Model of `urllib.parse.urljoin(base, rel)` at the collaborator
boundary: an absolute `http(s)` reference is returned unchanged, as the
real `urljoin` does; other references are resolved against the base,
which this model abstracts as concatenation (no claim depends on the
resolved shape). -/
def urljoinM (base rel : Str) : Str :=
  if httpLit.isPrefixOf rel then rel else base ++ rel

/-- Shared shape of the meta-tag image strategies (lines 191-195,
198-207, 209-219): strip the attribute value and make it absolute. -/
def metaImageUrl (url c : Str) : Option Str :=
  let u := pyStrip c
  if u = [] then none else some (urljoinM url u)

def altArticolo : Str := str r"Immagine articolo"

/-- Lines 165-260: image extraction — `og:image`, then the
`og:image:url` / `og:image:secure_url` variants, then the Twitter Card
image, then the JSON-LD `image` field, then up to two `<img>` elements of
the body container.  Only the first successful strategy contributes. -/
def extract_images (d : Doc) (url : Str) : List (Str × Str) :=
  let s1 : List (Str × Str) := match d.ogImage with
    | some c =>
      if c ≠ [] then
        match metaImageUrl url c with
        | some u => [(u, altArticolo)]
        | none => []
      else []
    | none => []
  if s1 ≠ [] then s1 else
  let s2 : List (Str × Str) := match d.ogImageVariant with
    | some c =>
      if c ≠ [] then
        match metaImageUrl url c with
        | some u => [(u, altArticolo)]
        | none => []
      else []
    | none => []
  if s2 ≠ [] then s2 else
  let s3 : List (Str × Str) := match d.twitterImage with
    | some c =>
      if c ≠ [] then
        match metaImageUrl url c with
        | some u => [(u, altArticolo)]
        | none => []
      else []
    | none => []
  if s3 ≠ [] then s3 else
  let s4 : List (Str × Str) := match d.jsonLdImage with
    | some u => if u ≠ [] then [(urljoinM url u, altArticolo)] else []
    | none => []
  if s4 ≠ [] then s4 else
  (d.bodyImgs.take 2).filterMap
    (fun p => if p.1 ≠ [] then some (urljoinM url p.1, p.2) else none)

/-- Lines 266-273: the DOM body fallback — the noise-stripped text of the
first semantic container, sanitized; empty when no container exists. -/
def bodyFallback (d : Doc) : Str :=
  match d.articleText with
  | some a => sanitize_xml a
  | none => []

/-- Lines 262-273: the body value before debug/image assembly — the
readability collaborator output (when truthy) stripped and sanitized,
else the DOM fallback. -/
def extract_body0 (d : Doc) : Str :=
  match d.trafilaturaText with
  | some t => if t ≠ [] then sanitize_xml (pyStrip t) else bodyFallback d
  | none => bodyFallback d

/-- Decimal digits of a natural number, as code points. -/
def natDigits (n : Nat) : Str := (Nat.toDigits 10 n).map Char.toNat

/-- Line 276: the always-prepended debug string
`"[DEBUG: Found {n} images for {url}] "`. -/
def dbgTag (n : Nat) (url : Str) : Str :=
  str r"[DEBUG: Found " ++ natDigits n ++ str r" images for " ++ url ++ str r"] "

/-- Line 280: `"Main image: {url[:100]}... "`. -/
def mainImageNote (u : Str) : Str := str r"Main image: " ++ u.take 100 ++ str r"... "

/-- Model of the stdlib collaborator `html.escape` (default `quote=True`):
`&`, `<`, `>`, `"` and the apostrophe are replaced by their entities. -/
def pyHtmlEscape (l : Str) : Str :=
  (l.map (fun c =>
    if c = 38 then str r"&amp;"
    else if c = 60 then str r"&lt;"
    else if c = 62 then str r"&gt;"
    else if c = 34 then str r"&quot;"
    else if c = 39 then str r"&#x27;"
    else [c])).flatten

/-- Line 279: the inline `<img ...><br>` HTML for the main image. -/
def imgHtmlTag (u a : Str) : Str :=
  str r"<img src=" ++ [34] ++ pyHtmlEscape u ++ [34] ++
  str r" alt=" ++ [34] ++ pyHtmlEscape a ++ [34] ++
  str r" style=" ++ [34] ++ str r"max-width:100%;height:auto;margin-bottom:15px;" ++ [34] ++
  str r"><br>"

/-- Line 286: the empty-content placeholder body. -/
def leggiFallback (url : Str) : Str :=
  str r"Leggi l" ++ [39] ++ str r"articolo completo su: " ++ url

/-- Lines 275-283: the assembled content before the empty-content check —
the debug prefix is always added; when an image was found the `<img>`
HTML and a main-image note are prepended as well. -/
def assembleRaw (images : List (Str × Str)) (url : Str) (content0 : Str) : Str :=
  match images with
  | [] => dbgTag images.length url ++ content0
  | m :: _ =>
    imgHtmlTag m.1 m.2 ++ (dbgTag images.length url ++ mainImageNote m.1) ++ content0

/-- Lines 275-286: content assembly; the `"Leggi ..."` placeholder would
be used only if the assembled content were empty. -/
def assembleContent (images : List (Str × Str)) (url : Str) (content0 : Str) : Str :=
  if assembleRaw images url content0 = [] then leggiFallback url
  else assembleRaw images url content0

/-- A parsed timestamp: broken-down civil fields plus the explicit UTC
offset in minutes (`none` for a naive timestamp). -/
structure DT where
  y : Int
  mo : Int
  d : Int
  h : Int
  mi : Int
  s : Int
  tzOffMin : Option Int
deriving DecidableEq

def parseFixedNat (acc : Nat) : Nat → Str → Option (Nat × Str)
  | 0, l => some (acc, l)
  | _ + 1, [] => none
  | k + 1, c :: rest =>
    if isDecDigit c then parseFixedNat (acc * 10 + (c - 48)) k rest else none

def expectCh (c : Nat) : Str → Option Str
  | x :: rest => if x = c then some rest else none
  | [] => none

/-- Parse the timezone tail of an ISO timestamp: nothing (naive), `Z`, or
`±HH:MM`; the outer `Option` is parse failure, the inner one naivety. -/
def parseTz (l : Str) : Option (Option Int) :=
  match l with
  | [] => some none
  | [90] => some (some 0)
  | 43 :: r =>
    match parseFixedNat 0 2 r with
    | some (oh, r1) =>
      match expectCh 58 r1 with
      | some r2 =>
        match parseFixedNat 0 2 r2 with
        | some (om, r3) =>
          if r3 = [] then some (some ((oh : Int) * 60 + (om : Int))) else none
        | none => none
      | none => none
    | none => none
  | 45 :: r =>
    match parseFixedNat 0 2 r with
    | some (oh, r1) =>
      match expectCh 58 r1 with
      | some r2 =>
        match parseFixedNat 0 2 r2 with
        | some (om, r3) =>
          if r3 = [] then some (some (-((oh : Int) * 60 + (om : Int)))) else none
        | none => none
      | none => none
    | none => none
  | _ => none

/-- Model of the permissive date-parser collaborator
(`dateutil.parser.parse`), restricted to ISO-8601
`YYYY-MM-DDTHH:MM:SS` with an optional `Z` or `±HH:MM` offset — the forms
the probed metadata and the spec examples use.  `none` models a parse
failure (swallowed by the probe loop). -/
def parseDate (l : Str) : Option DT :=
  (parseFixedNat 0 4 l).bind fun py =>
  (expectCh 45 py.2).bind fun l1 =>
  (parseFixedNat 0 2 l1).bind fun pmo =>
  (expectCh 45 pmo.2).bind fun l2 =>
  (parseFixedNat 0 2 l2).bind fun pd =>
  (expectCh 84 pd.2).bind fun l3 =>
  (parseFixedNat 0 2 l3).bind fun ph =>
  (expectCh 58 ph.2).bind fun l4 =>
  (parseFixedNat 0 2 l4).bind fun pmi =>
  (expectCh 58 pmi.2).bind fun l5 =>
  (parseFixedNat 0 2 l5).bind fun ps =>
  (parseTz ps.2).map fun tz =>
    ⟨(py.1 : Int), (pmo.1 : Int), (pd.1 : Int), (ph.1 : Int), (pmi.1 : Int), (ps.1 : Int), tz⟩

/-- Days from 1970-01-01 of a proleptic-Gregorian civil date (the
standard era-based algorithm); lets instants be compared as seconds. -/
def daysFromCivil (y m d : Int) : Int :=
  let y2 := if m ≤ 2 then y - 1 else y
  let era := (if 0 ≤ y2 then y2 else y2 - 399) / 400
  let yoe := y2 - era * 400
  let mp := (m + 9) % 12
  let doy := (153 * mp + 2) / 5 + d - 1
  let doe := yoe * 365 + yoe / 4 - yoe / 100 + doy
  era * 146097 + doe - 719468

/-- The instant denoted by the civil fields read at face value (no
offset applied), as seconds since the epoch. -/
def naiveEpochSeconds (dt : DT) : Int :=
  daysFromCivil dt.y dt.mo dt.d * 86400 + dt.h * 3600 + dt.mi * 60 + dt.s

/-- Seconds since the epoch of a UTC instant given by civil fields. -/
def utcSeconds (y mo d h mi s : Int) : Int :=
  daysFromCivil y mo d * 86400 + h * 3600 + mi * 60 + s

/-- Lines 310-316: no parsed date defaults to `now`; a naive timestamp
gets `tzinfo=utc` attached (fields read as UTC); an offset-bearing one is
converted to UTC (`astimezone`). -/
def normalizePubDt : Option DT → Int → Int
  | none, now => now
  | some dt, _ =>
    match dt.tzOffMin with
    | none => naiveEpochSeconds dt
    | some off => naiveEpochSeconds dt - off * 60

/-- Lines 291-308: probe the date selectors in order; the first probe
whose raw value parses wins; parse failures continue to the next probe. -/
def firstParsedDate : List (Option Str) → Option DT
  | [] => none
  | none :: rest => firstParsedDate rest
  | some raw :: rest =>
    match parseDate raw with
    | some dt => some dt
    | none => firstParsedDate rest

/-- Lines 288-316: date extraction — first parsed probe, normalized to a
UTC instant, defaulting to `now` (extraction time). -/
def extract_date (probes : List (Option Str)) (now : Int) : Int :=
  normalizePubDt (firstParsedDate probes) now

/-- The returned article dictionary of lines 318-324: exactly the keys
`title`, `link`, `content`, `pub_dt`, `images` — nothing else (in
particular no observed-vs-defaulted date flag). -/
structure Article where
  title : Str
  link : Str
  content : Str
  pubDt : Int
  images : List (Str × Str)
deriving DecidableEq

/-- `extract_article` (lines 119-328) on a successfully fetched and
parsed document; a fetch/parse exception is modelled at the call site as
`none : Option Article`. -/
def extract_article (d : Doc) (url : Str) (now : Int) : Article :=
  let images := extract_images d url
  { title := extract_title d
    link := url
    content := assembleContent images url (extract_body0 d)
    pubDt := extract_date d.dateProbes now
    images := images }

/-- Line 433: the batch filter
`if article and article.get("title") and article.get("content")`. -/
def mainKeeps : Option Article → Bool
  | none => false
  | some a => !a.title.isEmpty && !a.content.isEmpty

/-- Lines 428-439: collect the kept articles in processing order. -/
def collectItems (results : List (Option Article)) : List Article :=
  results.filterMap (fun r => match r with
    | some a => if mainKeeps (some a) then some a else none
    | none => none)

/-! The feed assembly model (lines 330-408 and the batch steps of
`main`, lines 441-449). -/

/-- Lines 365-366: the description after the 50000-character cap with the
`"..."` truncation marker. -/
def truncDesc (c : Str) : Str :=
  if 50000 < c.length then c.take 50000 ++ str r"..." else c

/-- Line 370: the HTML sniff — is `<img` or `<br>` a substring of the description. -/
def sniffsHtml (c : Str) : Bool :=
  containsSub (str r"<img") c || containsSub (str r"<br>") c

/-- Lines 363-375: the final description of one entry — the truncated
content as-is when it sniffs as HTML, else escaped and wrapped in a
paragraph. -/
def entryDescription (c : Str) : Str :=
  if sniffsHtml (truncDesc c) then truncDesc c
  else str r"<p>" ++ pyHtmlEscape (truncDesc c) ++ str r"</p>"

/-- Whether the entry of the item gets the HTML-bearing treatment (line 370)
rather than the escaped-paragraph treatment. -/
def htmlTreated (a : Article) : Bool := sniffsHtml (truncDesc a.content)

/-- One serialized feed entry (lines 354-380): permalink GUID from the
link, title, link, description, publication date. -/
structure Entry where
  guid : Str
  title : Str
  link : Str
  description : Str
  pubDate : Int
deriving DecidableEq

/-- Lines 355-380: the entry built for one article. -/
def mkEntry (a : Article) : Entry :=
  { guid := a.link
    title := a.title
    link := a.link
    description := entryDescription a.content
    pubDate := a.pubDt }

/-- Lines 354-397: the entry list of the document.  The loop calls the feedgen
collaborator `FeedGenerator.add_entry()` once per item; `add_entry`
inserts at the *front* of the entry list (its documented default order is
`prepend`), and `rss_str` serializes entries in list order. -/
def build_feed (items : List Article) : List Entry :=
  items.foldl (fun acc it => mkEntry it :: acc) []

/-- Line 446: `items.sort(key=lambda x: x["pub_dt"], reverse=True)` —
the stable Python sort, descending on the publish instant. -/
def pySortDesc (l : List Article) : List Article :=
  List.insertionSort (fun a b => b.pubDt ≤ a.pubDt) l

/-- Lines 441-449: the batch tail of `main` — sort the collected items
newest-first, then assemble the document. -/
def mainPipeline (items : List Article) : List Entry :=
  build_feed (pySortDesc items)

/-! The Listing Discoverer model (`list_articles_from_categories`,
lines 46-105). -/

def BASE_LIST : Str := str r"https://www.aboutamazon.it/notizie"

def BASE_URL : Str := str r"https://www.aboutamazon.it"

/-- Python `len(url.split(slash))`: one more than the number of slashes. -/
def slashSplitLen (l : Str) : Nat := l.count 47 + 1

/-- Lines 88-90: the skip patterns — `/tag/`, `/search`, `/categoria/`,
`/page/`, the category page itself, and the base listing URL. -/
def skipPatternHit (catUrl full : Str) : Bool :=
  containsSub (str r"/tag/") full || containsSub (str r"/search") full ||
  containsSub (str r"/categoria/") full || containsSub (str r"/page/") full ||
  containsSub catUrl full || containsSub BASE_LIST full

/-- Lines 80-95: processing of one anchor target — strip, drop empty and
fragment links, resolve against the base, drop skip-pattern hits, keep
only article-shaped URLs (`/notizie/` and at least 5 slash segments). -/
def processHref (catUrl href0 : Str) : Option Str :=
  let href := pyStrip href0
  if href = [] then none
  else if href.head? = some 35 then none
  else
    let full := urljoinM BASE_URL href
    if skipPatternHit catUrl full then none
    else if containsSub (str r"/notizie/") full && decide (5 ≤ slashSplitLen full) then
      some full
    else none

/-- Line 94: `urls.add(full_url)` — membership-checked insertion; the
list holds the members of the set in insertion order. -/
def setInsert (l : List Str) (u : Str) : List Str :=
  if u ∈ l then l else l ++ [u]

/-- Lines 46-104: the members of the accumulated `urls` set, in first-
insertion order.  Each page is presented at the collaborator boundary as
its category URL paired with the anchor targets its selectors produce,
in document order (selector multiplicity may repeat an anchor). -/
def discoverMembers (pages : List (Str × List Str)) : List Str :=
  pages.foldl
    (fun acc page =>
      page.2.foldl
        (fun acc2 h =>
          match processHref page.1 h with
          | some u => setInsert acc2 u
          | none => acc2)
        acc)
    []

/-- Line 105: `return list(urls)`.  Iterating a Python `set` yields its
members in an unspecified, hash- and history-dependent order; the model
takes that iteration order as a parameter `setOrder`, constrained by the
caller to be a permutation of the members. -/
def list_articles_from_categories (setOrder : List Str → List Str)
    (pages : List (Str × List Str)) : List Str :=
  setOrder (discoverMembers pages)

/-- Lexicographic order on code-point strings (Python string `<=`),
the order `sorted()` would use. -/
def lexLe : Str → Str → Bool
  | [], _ => true
  | _ :: _, [] => false
  | a :: as, b :: bs => if a < b then true else if b < a then false else lexLe as bs

/-! Helper lemmas about substrings and the assembled content. -/

lemma isPrefixOf_append_self : ∀ p t : Str, p.isPrefixOf (p ++ t) = true
  | [], _ => by simp [List.isPrefixOf]
  | c :: p', t => by
    show (c :: p').isPrefixOf (c :: (p' ++ t)) = true
    simp [List.isPrefixOf, isPrefixOf_append_self p' t]

lemma containsSub_here {pat l : Str} (h : pat.isPrefixOf l = true) :
    containsSub pat l = true := by
  cases l with
  | nil => simpa [containsSub] using h
  | cons c rest => simp [containsSub, h]

lemma containsSub_cons {pat l : Str} (c : Nat) (h : containsSub pat l = true) :
    containsSub pat (c :: l) = true := by
  simp [containsSub, h]

lemma containsSub_append_left {pat l : Str} (pre : Str)
    (h : containsSub pat l = true) : containsSub pat (pre ++ l) = true := by
  induction pre with
  | nil => simpa using h
  | cons c pre' ih => exact containsSub_cons c ih

lemma isPrefixOf_length : ∀ {p l : Str}, p.isPrefixOf l = true → p.length ≤ l.length := by
  intro p
  induction p with
  | nil => intro l _; simp
  | cons c p' ih =>
    intro l h
    cases l with
    | nil => simp [List.isPrefixOf] at h
    | cons d l' =>
      simp only [List.isPrefixOf, Bool.and_eq_true] at h
      simpa [List.length_cons] using Nat.succ_le_succ (ih h.2)

lemma containsSub_length : ∀ {pat l : Str}, containsSub pat l = true →
    pat.length ≤ l.length := by
  intro pat l
  induction l with
  | nil => intro h; exact isPrefixOf_length (by simpa [containsSub] using h)
  | cons c rest ih =>
    intro h
    simp only [containsSub, Bool.or_eq_true] at h
    rcases h with h | h
    · exact isPrefixOf_length h
    · exact Nat.le_succ_of_le (ih h)

lemma dbgTag_length (n : Nat) (url : Str) :
    (dbgTag n url).length = 28 + (natDigits n).length + url.length := by
  have e1 : (str r"[DEBUG: Found ").length = 14 := by decide
  have e2 : (str r" images for ").length = 12 := by decide
  have e3 : (str r"] ").length = 2 := by decide
  unfold dbgTag
  simp only [List.length_append]
  omega

lemma dbgTag_ne_nil (n : Nat) (url : Str) : dbgTag n url ≠ [] := by
  intro h
  have h2 := congrArg List.length h
  rw [dbgTag_length] at h2
  simp at h2

lemma imgHtmlTag_ne_nil (u a : Str) : imgHtmlTag u a ≠ [] := by
  intro h
  have h2 := congrArg List.length h
  simp only [imgHtmlTag, List.length_append, List.length_nil] at h2
  have e : (str r"<img src=").length = 9 := by decide
  omega

lemma assembleRaw_ne_nil (images : List (Str × Str)) (url c0 : Str) :
    assembleRaw images url c0 ≠ [] := by
  cases images with
  | nil =>
    intro h
    simp only [assembleRaw] at h
    rw [List.append_eq_nil] at h
    exact dbgTag_ne_nil _ _ h.1
  | cons m rest =>
    intro h
    simp only [assembleRaw] at h
    rw [List.append_eq_nil, List.append_eq_nil] at h
    exact imgHtmlTag_ne_nil _ _ h.1.1

/-- The empty-content fallback of line 286 is never taken. -/
lemma assembleContent_eq_raw (images : List (Str × Str)) (url c0 : Str) :
    assembleContent images url c0 = assembleRaw images url c0 := by
  unfold assembleContent
  rw [if_neg (assembleRaw_ne_nil images url c0)]

lemma assembleContent_ne_nil (images : List (Str × Str)) (url c0 : Str) :
    assembleContent images url c0 ≠ [] := by
  rw [assembleContent_eq_raw]
  exact assembleRaw_ne_nil images url c0

/-- The debug tag is always a substring of the assembled content. -/
lemma containsSub_dbg (images : List (Str × Str)) (url c0 : Str) :
    containsSub (dbgTag images.length url) (assembleContent images url c0) = true := by
  rw [assembleContent_eq_raw]
  cases images with
  | nil =>
    simp only [assembleRaw]
    exact containsSub_here (isPrefixOf_append_self _ _)
  | cons m rest =>
    simp only [assembleRaw]
    rw [List.append_assoc, List.append_assoc]
    exact containsSub_append_left _ (containsSub_here (isPrefixOf_append_self _ _))

lemma extract_title_ne_nil (d : Doc) : extract_title d ≠ [] := by
  unfold extract_title
  split
  · decide
  · assumption

lemma truncDesc_len_le (c : Str) : (truncDesc c).length ≤ 50003 := by
  unfold truncDesc
  by_cases h : 50000 < c.length
  · rw [if_pos h, List.length_append, List.length_take]
    have h1 : min 50000 c.length ≤ 50000 := Nat.min_le_left _ _
    have h2 : (str r"...").length = 3 := by decide
    omega
  · rw [if_neg h]
    omega

lemma truncDesc_of_le {c : Str} (h : c.length ≤ 50000) : truncDesc c = c := by
  unfold truncDesc
  rw [if_neg (by omega)]

lemma truncDesc_of_gt {c : Str} (h : 50000 < c.length) :
    truncDesc c = c.take 50000 ++ str r"..." := by
  unfold truncDesc
  rw [if_pos h]

/-! Claims C7, C10, C1, C6. -/

/-- Claim C7, confirmed: with no first-level heading and no
`og:title`/`twitter:title` meta tags but a `<title>` of
`"Foo — Site Name"`, title extraction returns `"Foo"` (site-name suffix
after the `" — "` separator stripped); on the wholly empty document it
returns the fixed placeholder `"Articolo da About Amazon Italia"`; and
the extracted title is never the empty string. -/
theorem claim_C7_title_chain :
    extract_title { titleText := some (str r"Foo — Site Name") } = str r"Foo" ∧
    extract_title emptyDoc = str r"Articolo da About Amazon Italia" ∧
    ∀ d : Doc, extract_title d ≠ [] :=
  ⟨by decide, by decide, extract_title_ne_nil⟩

/-- Claim C10, counterexample to the "debug text is carried into the
description of the entry" part as universally stated: for a (pathological)
candidate URL of 50001 characters, the debug prefix
`"[DEBUG: Found 0 images for <url>] "` is 50030 characters long, while
the capped description (line 365-366) is at most 50003 characters, so
the debug text cannot appear in it. -/
theorem claim_C10_counterexample :
    containsSub (dbgTag 0 (List.replicate 50001 97))
      (truncDesc (assembleContent [] (List.replicate 50001 97) [])) = false := by
  have hone : (natDigits 0).length = 1 := by decide
  have hlen : (dbgTag 0 (List.replicate 50001 97)).length = 50030 := by
    rw [dbgTag_length, List.length_replicate]
    omega
  have hX : (truncDesc (assembleContent [] (List.replicate 50001 97) [])).length ≤ 50003 :=
    truncDesc_len_le _
  cases hc : containsSub (dbgTag 0 (List.replicate 50001 97))
      (truncDesc (assembleContent [] (List.replicate 50001 97) [])) with
  | false => rfl
  | true =>
    have := containsSub_length hc
    omega

/-- Claim C10, amended: the content of every successful extraction is
non-empty and contains the literal debug prefix
`"[DEBUG: Found N images for <url>] "`, preceded by an `<img src="` tag
when at least one image was found; consequently the
`Leggi ...` empty-body branch is unreachable (the
assembled content already differs from `[]` before that check, see
`assembleContent_eq_raw`); and the debug text survives the description
cap whenever the assembled content fits in the 50000-character cap — for
pathologically long URLs truncation can cut it (see the
counterexample). -/
theorem claim_C10_debug_content :
    (∀ (images : List (Str × Str)) (url c0 : Str),
      assembleContent images url c0 ≠ [] ∧
      containsSub (dbgTag images.length url) (assembleContent images url c0) = true) ∧
    (∀ (m : Str × Str) (rest : List (Str × Str)) (url c0 : Str),
      (str r"<img src=" ++ [34]).isPrefixOf (assembleContent (m :: rest) url c0) = true) ∧
    (∀ (images : List (Str × Str)) (url c0 : Str),
      (assembleContent images url c0).length ≤ 50000 →
      containsSub (dbgTag images.length url)
        (truncDesc (assembleContent images url c0)) = true) := by
  refine ⟨fun images url c0 =>
    ⟨assembleContent_ne_nil images url c0, containsSub_dbg images url c0⟩, ?_, ?_⟩
  · intro m rest url c0
    rw [assembleContent_eq_raw]
    simp only [assembleRaw, imgHtmlTag, List.append_assoc]
    rw [← List.append_assoc]
    exact isPrefixOf_append_self _ _
  · intro images url c0 hlen
    rw [truncDesc_of_le hlen]
    exact containsSub_dbg images url c0

/-- Witness for the amended claim C10 at a concrete short URL. -/
theorem claim_C10_witness :
    containsSub (dbgTag 0 (str r"https://e/notizie/a"))
      (truncDesc (assembleContent [] (str r"https://e/notizie/a") [])) = true :=
  claim_C10_debug_content.2.2 [] (str r"https://e/notizie/a") [] (by decide)

lemma isEmpty_false_of_ne_nil {l : Str} (h : l ≠ []) : l.isEmpty = false := by
  cases l with
  | nil => exact absurd rfl h
  | cons a t => rfl

/-- Every successful extraction passes the batch filter of line 433: the
title is never empty (placeholder fallback) and the content is never
empty (debug prefix), so only `None` results are dropped. -/
lemma mainKeeps_extract (d : Doc) (url : Str) (now : Int) :
    mainKeeps (some (extract_article d url now)) = true := by
  have h1 : (extract_article d url now).title ≠ [] := extract_title_ne_nil d
  have h2 : (extract_article d url now).content ≠ [] := by
    show assembleContent (extract_images d url) url (extract_body0 d) ≠ []
    exact assembleContent_ne_nil _ _ _
  simp [mainKeeps, isEmpty_false_of_ne_nil h1, isEmpty_false_of_ne_nil h2]

/-- Claim C1, counterexample: on the wholly empty document the title
chain bottoms out at the placeholder and the body chain bottoms out empty
(fully-placeholder extraction), yet the batch filter keeps the article —
the always-prepended debug prefix makes `content` truthy and the
placeholder makes `title` truthy — so the item enters the collected
batch and hence the assembled feed, instead of being excluded. -/
theorem claim_C1_counterexample :
    extract_title emptyDoc = placeholderTitle ∧
    extract_body0 emptyDoc = [] ∧
    mainKeeps (some (extract_article emptyDoc (str r"https://e/notizie/a") 0)) = true ∧
    collectItems [some (extract_article emptyDoc (str r"https://e/notizie/a") 0)] =
      [extract_article emptyDoc (str r"https://e/notizie/a") 0] :=
  ⟨by decide, by decide, by decide, by decide⟩

/-- Claim C1, amended: the batch filter of line 433 drops exactly the
`None` results (failed fetch/parse); every successful extraction — in
particular a fully-placeholder one — is kept and appears in the collected
item list. -/
theorem claim_C1_filter_keeps_all :
    (∀ (d : Doc) (url : Str) (now : Int),
      mainKeeps (some (extract_article d url now)) = true) ∧
    mainKeeps none = false ∧
    ∀ (d : Doc) (url : Str) (now : Int) (rest : List (Option Article)),
      collectItems (some (extract_article d url now) :: rest) =
        extract_article d url now :: collectItems rest := by
  refine ⟨mainKeeps_extract, rfl, ?_⟩
  intro d url now rest
  simp [collectItems, List.filterMap_cons, mainKeeps_extract d url now]

/-- Claim C6, counterexample to the "flagged as defaulted rather than
observed" part: a document whose only date probe is an observed
`2024-01-01T00:00:00Z` and a document with no date signal at all, both
extracted at that same instant, yield **identical** article records — the
returned dictionary holds only title/link/content/pub_dt/images, so
nothing distinguishes a defaulted date from an observed one. -/
theorem claim_C6_counterexample :
    extract_article { dateProbes := [some (str r"2024-01-01T00:00:00Z")] }
        (str r"https://e/notizie/a") (utcSeconds 2024 1 1 0 0 0) =
      extract_article emptyDoc (str r"https://e/notizie/a")
        (utcSeconds 2024 1 1 0 0 0) := by
  decide

/-- Claim C6, amended: the first successfully parsed structured date is
normalized to UTC — `article:published_time = "2024-03-05T10:00:00+02:00"`
yields the instant `2024-03-05T08:00:00Z`; a naive timestamp is read as
if it carried a `+00:00` offset (treated as UTC, concretely
`"2024-03-05T10:00:00"` yields `2024-03-05T10:00:00Z`); and a document
with no parseable date yields an instant equal to extraction time — but
no defaulted-vs-observed flag is recorded (see the counterexample). -/
theorem claim_C6_date_normalization :
    extract_date [some (str r"2024-03-05T10:00:00+02:00")] 0 =
      utcSeconds 2024 3 5 8 0 0 ∧
    extract_date [some (str r"2024-03-05T10:00:00")] 0 =
      utcSeconds 2024 3 5 10 0 0 ∧
    (∀ (y mo d h mi s now : Int),
      normalizePubDt (some ⟨y, mo, d, h, mi, s, none⟩) now =
        normalizePubDt (some ⟨y, mo, d, h, mi, s, some 0⟩) now) ∧
    ∀ now : Int, extract_date [] now = now := by
  refine ⟨by decide, by decide, ?_, fun _ => rfl⟩
  intro y mo d h mi s now
  simp [normalizePubDt, naiveEpochSeconds]

/-! Claims C3, C4, C9. -/

lemma containsSub_false_of_head_notMem {c : Nat} {pat l : Str} (h : c ∉ l) :
    containsSub (c :: pat) l = false := by
  induction l with
  | nil => simp [containsSub, List.isPrefixOf]
  | cons d rest ih =>
    have hd : c ≠ d := fun e => h (by rw [e]; exact List.mem_cons_self _ _)
    have hrest : c ∉ rest := fun hr => h (List.mem_cons_of_mem _ hr)
    simp [containsSub, List.isPrefixOf, ih hrest, hd]

lemma pyHtmlEscape_append (a b : Str) :
    pyHtmlEscape (a ++ b) = pyHtmlEscape a ++ pyHtmlEscape b := by
  simp [pyHtmlEscape]

lemma pyHtmlEscape_97s (n : Nat) :
    pyHtmlEscape (List.replicate n 97) = List.replicate n 97 := by
  induction n with
  | zero => rfl
  | succ k ih =>
    rw [List.replicate_succ]
    show pyHtmlEscape (97 :: List.replicate k 97) = _
    simp only [pyHtmlEscape, List.map_cons, List.flatten_cons] at ih ⊢
    rw [ih]
    rfl

lemma build_feed_foldl (items : List Article) :
    ∀ acc : List Entry,
      items.foldl (fun acc it => mkEntry it :: acc) acc =
        (items.map mkEntry).reverse ++ acc := by
  induction items with
  | nil => intro acc; simp
  | cons a l ih =>
    intro acc
    simp only [List.foldl_cons, List.map_cons, List.reverse_cons]
    rw [ih (mkEntry a :: acc)]
    simp

/-- The entry list of the document is the item list mapped to entries and
reversed (the default `prepend` insertion of feedgen). -/
lemma build_feed_eq (items : List Article) :
    build_feed items = (items.map mkEntry).reverse := by
  unfold build_feed
  rw [build_feed_foldl items []]
  simp

instance : IsTotal Article (fun a b => b.pubDt ≤ a.pubDt) :=
  ⟨fun a b => Int.le_total b.pubDt a.pubDt⟩

instance : IsTrans Article (fun a b => b.pubDt ≤ a.pubDt) :=
  ⟨fun _ _ _ hab hbc => le_trans hbc hab⟩

/-- Line 446 sorts the batch newest-first. -/
lemma pySortDesc_sorted (items : List Article) :
    List.Sorted (fun a b => b.pubDt ≤ a.pubDt) (pySortDesc items) :=
  List.sorted_insertionSort _ items

/-- A fixture article with the given publish instant. -/
def artAt (t : Int) : Article :=
  { title := str r"t", link := str r"l", content := str r"c", pubDt := t, images := [] }

/-- Claim C3, counterexample: after the newest-first sort of `main`, the
feedgen collaborator prepends each added entry, so the serialized
document lists the entries oldest-first — for publish instants
`1 < 2 < 3` the document order is `[1, 2, 3]`, not `[3, 2, 1]`. -/
theorem claim_C3_counterexample :
    (mainPipeline [artAt 3, artAt 1, artAt 2]).map Entry.pubDate = [1, 2, 3] ∧
    (mainPipeline [artAt 3, artAt 1, artAt 2]).map Entry.pubDate ≠ [3, 2, 1] :=
  ⟨by decide, by decide⟩

/-- Claim C3, amended: in every assembled document the entries appear in
non-decreasing (ascending) order of `pubDate` — the batch is sorted
newest-first (line 446), but the entry loop prepends, reversing that
order in the document; end to end, instants `T1 < T2 < T3` appear as
`[T1, T2, T3]`. -/
theorem claim_C3_entries_ascending :
    (∀ items : List Article,
      List.Sorted (fun e1 e2 : Entry => e1.pubDate ≤ e2.pubDate)
        (mainPipeline items)) ∧
    (mainPipeline [artAt 3, artAt 1, artAt 2]).map Entry.pubDate = [1, 2, 3] := by
  refine ⟨?_, by decide⟩
  intro items
  unfold mainPipeline
  rw [build_feed_eq]
  rw [List.Sorted, List.pairwise_reverse]
  exact (pySortDesc_sorted items).map mkEntry (fun a b h => h)

/-- Claim C4, counterexample: the capped description can exceed the
50000-character cap — a 50001-character plain body yields a truncated
50003-character string (cap plus the `"..."` marker), and after the
paragraph wrapping of line 375 the entry description has 50010
characters. -/
theorem claim_C4_counterexample :
    50000 < (entryDescription (List.replicate 50001 97)).length := by
  have htd : truncDesc (List.replicate 50001 97) =
      List.replicate 50000 97 ++ str r"..." := by
    rw [truncDesc_of_gt (by rw [List.length_replicate]; omega), List.take_replicate]
    norm_num
  have h60 : (60 : Nat) ∉ List.replicate 50000 97 ++ str r"..." := by
    intro hmem
    rcases List.mem_append.mp hmem with h | h
    · exact absurd (List.eq_of_mem_replicate h) (by decide)
    · exact absurd h (by decide)
  have e1 : str r"<img" = 60 :: str r"img" := by decide
  have e2 : str r"<br>" = 60 :: str r"br>" := by decide
  have hsniff : sniffsHtml (truncDesc (List.replicate 50001 97)) = false := by
    rw [htd, sniffsHtml, e1, e2]
    rw [containsSub_false_of_head_notMem h60, containsSub_false_of_head_notMem h60]
    rfl
  rw [entryDescription, if_neg (by rw [hsniff]; exact Bool.false_ne_true)]
  rw [htd, pyHtmlEscape_append, pyHtmlEscape_97s]
  have p1 : (str r"<p>").length = 3 := by decide
  have p2 : (str r"</p>").length = 4 := by decide
  have p3 : (pyHtmlEscape (str r"...")).length = 3 := by decide
  simp only [List.length_append, List.length_replicate]
  omega

/-- Claim C4, amended: the description is capped, but the truncation
marker sits outside the cap: the truncated content never exceeds
50003 characters (cap + 3-character marker `"..."`); a body over the cap
becomes exactly its 50000-character prefix plus the marker (so
truncation does not otherwise change the content), and a body within the
cap is passed through unchanged.  (The later paragraph wrapping and
escaping of line 375 can lengthen the serialized form further.) -/
theorem claim_C4_description_cap :
    (∀ c : Str, (truncDesc c).length ≤ 50003) ∧
    (∀ c : Str, 50000 < c.length → truncDesc c = c.take 50000 ++ str r"...") ∧
    (∀ c : Str, c.length ≤ 50000 → truncDesc c = c) :=
  ⟨truncDesc_len_le, fun _ h => truncDesc_of_gt h, fun _ h => truncDesc_of_le h⟩

/-- Witness for the amended claim C4: a body over the cap and one within
the cap, at concrete inputs. -/
theorem claim_C4_witness :
    truncDesc (List.replicate 50001 97) =
      (List.replicate 50001 97).take 50000 ++ str r"..." ∧
    truncDesc (str r"ciao") = str r"ciao" :=
  ⟨claim_C4_description_cap.2.1 _ (by rw [List.length_replicate]; omega),
   claim_C4_description_cap.2.2 _ (by decide)⟩

/-- A fixture article whose content sniffs as HTML (an `<img` tag). -/
def itemImg : Article :=
  { title := str r"t1", link := str r"l1", content := str r"<img x>", pubDt := 1,
    images := [] }

/-- A fixture article with plain-text content. -/
def itemPlain : Article :=
  { title := str r"t2", link := str r"l2", content := str r"hello", pubDt := 2,
    images := [] }

/-- Claim C9, counterexample: the encoding treatment is chosen per item
(line 370), so one document can mix both treatments — a batch with one
image-bearing item and one plain item yields a document whose entry
descriptions are the escaped paragraph `<p>hello</p>` and the raw HTML
`<img x>` side by side. -/
theorem claim_C9_counterexample :
    ¬ ((∀ a ∈ [itemImg, itemPlain], htmlTreated a = true) ∨
       (∀ a ∈ [itemImg, itemPlain], htmlTreated a = false)) ∧
    (build_feed [itemImg, itemPlain]).map Entry.description =
      [str r"<p>hello</p>", str r"<img x>"] :=
  ⟨by decide, by decide⟩

/-- Claim C9, amended: the body-encoding treatment is decided per entry
by content sniffing (`<img`/`<br>` substring of the truncated body):
the description of each entry is the raw truncated content when it sniffs as
HTML and the escaped paragraph form otherwise, so a batch containing
items of both kinds produces one document carrying both treatments. -/
theorem claim_C9_treatment_per_item :
    (∀ items : List Article,
      (build_feed items).map Entry.description =
        ((items.map fun a =>
          if htmlTreated a then truncDesc a.content
          else str r"<p>" ++ pyHtmlEscape (truncDesc a.content) ++ str r"</p>").reverse)) ∧
    htmlTreated itemImg = true ∧ htmlTreated itemPlain = false := by
  refine ⟨?_, by decide, by decide⟩
  intro items
  rw [build_feed_eq, List.map_reverse, List.map_map]
  rfl

/-! Claim C5. -/

lemma setInsert_nodup {l : List Str} {u : Str} (h : l.Nodup) :
    (setInsert l u).Nodup := by
  unfold setInsert
  by_cases hu : u ∈ l
  · rw [if_pos hu]; exact h
  · rw [if_neg hu]
    exact h.append (List.nodup_singleton u) (List.disjoint_singleton.mpr hu)

lemma nodup_foldl {β : Type} (f : List Str → β → List Str)
    (hf : ∀ acc b, acc.Nodup → (f acc b).Nodup) :
    ∀ (bs : List β) (acc : List Str), acc.Nodup → (bs.foldl f acc).Nodup := by
  intro bs
  induction bs with
  | nil => intro acc h; exact h
  | cons b bs ih => intro acc h; exact ih _ (hf acc b h)

/-- The accumulated URL set has unique members. -/
lemma discoverMembers_nodup (pages : List (Str × List Str)) :
    (discoverMembers pages).Nodup := by
  unfold discoverMembers
  refine nodup_foldl _ ?_ pages [] List.nodup_nil
  intro acc page hacc
  refine nodup_foldl _ ?_ page.2 acc hacc
  intro acc2 h hacc2
  cases hp : processHref page.1 h with
  | some u => simp only [hp]; exact setInsert_nodup hacc2
  | none => simpa [hp] using hacc2

/-- The concrete fixture listing: one category page exposing two
qualifying absolute article URLs, the lexicographically larger first. -/
def pagesEx : List (Str × List Str) :=
  [(str r"https://www.aboutamazon.it/notizie/company-news",
    [str r"https://bbb.example/notizie/a/b", str r"https://aaa.example/notizie/a/b"])]

/-- Claim C5, counterexample: the discoverer applies no sort — it returns
`list(urls)` in set-iteration order.  The identity iteration order is a
legitimate permutation of the members of the set, and on the fixture it yields
the insertion order `[bbb..., aaa...]`, which is not lexicographically
sorted; so the output is not guaranteed to be in sorted order. -/
theorem claim_C5_counterexample :
    (∀ l : List Str, (id l).Perm l) ∧
    list_articles_from_categories id pagesEx =
      [str r"https://bbb.example/notizie/a/b", str r"https://aaa.example/notizie/a/b"] ∧
    ¬ List.Sorted (fun u v => lexLe u v = true)
        (list_articles_from_categories id pagesEx) :=
  ⟨fun l => List.Perm.refl l, by decide, by decide⟩

/-- Claim C5, amended: the discoverer output is deduplicated — it holds
exactly the members of the accumulated URL set, each once — but in
unspecified set-iteration order: whatever permutation the runtime yields
is returned unsorted, so neither lexicographic order nor cross-run
determinism is guaranteed. -/
theorem claim_C5_dedup_unordered :
    ∀ (pages : List (Str × List Str)) (setOrder : List Str → List Str),
      (∀ l : List Str, (setOrder l).Perm l) →
      (list_articles_from_categories setOrder pages).Nodup ∧
      (list_articles_from_categories setOrder pages).Perm (discoverMembers pages) ∧
      (discoverMembers pages).Nodup := by
  intro pages f hf
  have hnd := discoverMembers_nodup pages
  have hperm := hf (discoverMembers pages)
  exact ⟨hperm.nodup_iff.mpr hnd, hperm, hnd⟩

/-- Witness for the amended claim C5 at the concrete fixture with the
identity iteration order. -/
theorem claim_C5_witness :
    (list_articles_from_categories id pagesEx).Nodup ∧
    (list_articles_from_categories id pagesEx).Perm (discoverMembers pagesEx) ∧
    (discoverMembers pagesEx).Nodup :=
  claim_C5_dedup_unordered pagesEx id (fun l => List.Perm.refl l)

end FeedBuilder
